import Mathlib

/-!
Shallow embedding of nenupy/undysputed/dynspec.py (classes _Lane and Dynspec):
the lane-resolution derivation, polarimetric assembly and Stokes extraction,
and the correction-pipeline stages (edge-channel flagging, dedispersion,
rebinning) together with the selection/stitching control flow of Dynspec.get
and the lanefiles attachment logic.  Machine floats are modelled by exact
rationals extended with a NaN sentinel; numpy arrays by nested lists.
-/

/-- Real value extended with the NaN sentinel: the pipeline's numpy arrays
hold floats whose flagged entries are set to NaN. -/
inductive RVal where
  | nan : RVal
  | val : ℚ → RVal
deriving DecidableEq

/-- Dynamic-spectrum cube, time-major: a list of frequency rows, each row a
list of per-polarization samples (numpy axes (time, frequency, polarization)). -/
abbrev DataCube := List (List (List RVal))

/-- Python exception classes raised by the embedded code paths. -/
inductive PyError where
  | valueError : PyError
  | fileNotFound : PyError
  | unboundLocal : PyError
  | notImplemented : PyError
deriving DecidableEq

/-- Rounding as performed by numpy.round: round half to even. -/
def npRound (q : ℚ) : ℤ :=
  if q - (⌊q⌋ : ℚ) < 1/2 then ⌊q⌋
  else if 1/2 < q - (⌊q⌋ : ℚ) then ⌊q⌋ + 1
  else if ⌊q⌋ % 2 = 0 then ⌊q⌋ else ⌊q⌋ + 1

theorem npRound_zero : npRound 0 = 0 := by norm_num [npRound]

/-- Start index of the Python slice a[k:] over a length-n axis
(negative k counts from the end, clamped at 0; k = 0 selects everything). -/
def pySliceStart (k : ℤ) (n : ℕ) : ℕ :=
  if 0 ≤ k then min k.toNat n else n - min n (-k).toNat

/-- Source index realizing numpy.roll by -c on a length-n axis:
np.roll(a, -c)[t] = a[(t + c) mod n]. -/
def rollIndex (n : ℕ) (c : ℤ) (t : ℕ) : ℕ :=
  (((t : ℤ) + c) % (n : ℤ)).toNat

theorem getD_map_lt {α β : Type} (g : α → β) (l : List α) (t : ℕ) (d : β) (d0 : α)
    (h : t < l.length) : (l.map g).getD t d = g (l.getD t d0) := by
  induction l generalizing t with
  | nil => simp at h
  | cons a l ih =>
    cases t with
    | zero => rfl
    | succ t => exact ih t (Nat.lt_of_succ_lt_succ h)

theorem getD_range (n t : ℕ) (h : t < n) : (List.range n).getD t 0 = t := by
  simp [List.getD_eq_getElem?_getD, List.getElem?_range, h]

theorem getD_range_map {α : Type} (f : ℕ → α) (n t : ℕ) (d : α) (h : t < n) :
    ((List.range n).map f).getD t d = f t := by
  rw [getD_map_lt f _ t d 0 (by simpa using h), getD_range n t h]

theorem map_nan_eq_replicate (l : List RVal) :
    l.map (fun _ => RVal.nan) = List.replicate l.length RVal.nan := by
  induction l with
  | nil => rfl
  | cons a l ih => simp [ih, List.replicate_succ]

/-- Modelled from the spec: nenupy.astro.dispersion_delay is outside the
embedded source tree; the spec treats it as a pure function of a frequency and
a dispersion-measure scalar (the cold-plasma relation, proportional to the
dispersion measure and to the inverse squared frequency). -/
def dispersion_delay (frequency dispersion_measure : ℚ) : ℚ :=
  (4148808/1000) * dispersion_measure / (frequency * frequency)

/-- Per-channel dispersion delay in whole time cells: the delay of a channel
relative to the maximum selected frequency, divided by the time resolution and
rounded as numpy.round does (Dynspec._dedisperse, dynspec.py lines 1772-1781). -/
def cellDelay (dm dt fmax f : ℚ) : ℤ :=
  npRound ((dispersion_delay f dm - dispersion_delay fmax dm) / dt)

theorem cellDelay_dm_zero (dt fmax f : ℚ) : cellDelay 0 dt fmax f = 0 := by
  simp [cellDelay, dispersion_delay, npRound_zero]

theorem cellDelay_self (d dt f : ℚ) : cellDelay d dt f f = 0 := by
  simp [cellDelay, npRound_zero]

/-- Embedding of Dynspec._dedisperse (dynspec.py lines 1756-1790): a None
dispersion measure skips the stage; otherwise the frequency-axis length is
checked, each channel is cyclically shifted backward by its cell delay c, and
the Python assignment data[-c:, i, :] = NaN masks the rows from slice start
pySliceStart (-c) nt onward. -/
def dedisperse : Option ℚ → ℚ → ℚ → DataCube → List ℚ → Except PyError DataCube
  | none, _, _, data, _ => Except.ok data
  | some d, fmax, dt, data, freqs =>
    if (data.headD []).length ≠ freqs.length then Except.error PyError.valueError
    else
      Except.ok ((List.range data.length).map (fun t =>
        (List.range freqs.length).map (fun i =>
          let c := cellDelay d dt fmax (freqs.getD i 0)
          if pySliceStart (-c) data.length ≤ t then
            ((data.getD (rollIndex data.length c t) []).getD i []).map (fun _ => RVal.nan)
          else (data.getD (rollIndex data.length c t) []).getD i [])))

/-- C1: the claim states that a dispersion measure of 0 (zero, not None) makes
_dedisperse return its input unchanged.  The code disproves it: every cell
delay rounds to 0 and the mask data[-0:, i, :] = NaN is the whole-axis slice
data[0:], so every channel is entirely overwritten with NaN.  Evaluated at a
concrete 2-time-sample, 1-channel, 1-polarization input of ones. -/
theorem dedisperse_dm_zero_erases_data :
    dedisperse (some 0) 50 1 [[[RVal.val 1]], [[RVal.val 1]]] [50] =
      Except.ok [[[RVal.nan]], [[RVal.nan]]] ∧
    ([[[RVal.nan]], [[RVal.nan]]] : DataCube) ≠ [[[RVal.val 1]], [[RVal.val 1]]] := by
  constructor
  · simp [dedisperse, cellDelay_dm_zero, pySliceStart, List.range_succ]
    decide
  · decide

/-- C9: whenever dedispersion runs with a non-None dispersion measure, any
channel whose relative delay rounds to zero cells (in particular a channel
lying exactly at the delay-reference frequency, the selected maximum) has its
entire time series replaced by NaN, not just trailing wrapped samples. -/
theorem dedisperse_zero_cell_delay_masks_channel
    (d fmax dt : ℚ) (freqs : List ℚ) (data : DataCube) (out : DataCube)
    (hok : dedisperse (some d) fmax dt data freqs = Except.ok out)
    (i t : ℕ) (hi : i < freqs.length) (ht : t < data.length)
    (hc : cellDelay d dt fmax (freqs.getD i 0) = 0) :
    (out.getD t []).getD i [] =
      List.replicate (((data.getD t []).getD i []).length) RVal.nan ∧
    cellDelay d dt fmax fmax = 0 := by
  refine ⟨?_, cellDelay_self d dt fmax⟩
  rw [dedisperse] at hok
  by_cases hlen : (data.headD []).length ≠ freqs.length
  · rw [if_pos hlen] at hok; exact absurd hok (by simp)
  · rw [if_neg hlen] at hok
    have hout := (Except.ok.injEq _ _ ).mp hok
    subst hout
    rw [getD_range_map _ _ t [] ht, getD_range_map _ _ i [] hi, hc]
    have hroll : rollIndex data.length 0 t = t := by
      unfold rollIndex
      rw [Int.emod_eq_of_lt (by positivity) (by exact_mod_cast ht)]
      simp
    simp only [pySliceStart, neg_zero, le_refl, if_pos, Int.toNat_zero, Nat.zero_le,
      min_eq_left, hroll]
    exact map_nan_eq_replicate _

/-- Witness for C9 at a concrete one-sample input: the single channel sits at
the reference frequency, its cell delay is 0, and its whole series is NaN. -/
theorem dedisperse_zero_cell_delay_masks_channel_witness :
    (([[[RVal.nan]]] : DataCube).getD 0 []).getD 0 [] =
      List.replicate (((([[[RVal.val 2]]] : DataCube).getD 0 []).getD 0 []).length) RVal.nan ∧
    cellDelay 1 1 50 50 = 0 := by
  refine dedisperse_zero_cell_delay_masks_channel 1 50 1 [50] [[[RVal.val 2]]] [[[RVal.nan]]]
    ?_ 0 0 (by decide) (by decide) (by rw [show ([(50 : ℚ)].getD 0 0) = 50 from rfl]; exact cellDelay_self 1 1 50)
  simp [dedisperse, cellDelay_self, pySliceStart, List.range_succ]
  decide

/-- Embedding of the Dynspec.edge_channels_to_remove setter (dynspec.py lines
1219-1246): the stored value together with whether a warning was logged.  The
non-integer branch is excluded by typing; the two clamp branches warn. -/
def edge_channels_setter (nchan : ℕ) (n : ℤ) : ℤ × Bool :=
  if n * 2 > (nchan : ℤ) then (0, true)
  else if n < 0 then (0, true)
  else (n, false)

/-- Embedding of Dynspec._remove_edge_channels (dynspec.py lines 1724-1739):
with n > 0, reshape to (time, subbands, channels, pol) and write NaN over the
first and last n channels of every subband; the flattened frequency index f
lies in subband channel f mod nchan. -/
def remove_edge_channels (n nchan : ℕ) (data : DataCube) : DataCube :=
  if n = 0 then data
  else data.map (fun row =>
    (List.range row.length).map (fun f =>
      if f % nchan < n ∨ nchan - n ≤ f % nchan then
        (row.getD f []).map (fun _ => RVal.nan)
      else row.getD f []))

/-- C2 counterexample: with 4 channels per subband, assigning n = 2 = nchan/2
satisfies 2n ≥ nchan, yet the setter stores 2 without warning instead of the
claimed fallback 0 with a warning (the code clamps only on 2n > nchan). -/
theorem edge_channels_half_not_clamped :
    (2 : ℤ) * 2 ≥ ((4 : ℕ) : ℤ) ∧ edge_channels_setter 4 2 ≠ (0, true) ∧
    edge_channels_setter 4 2 = (2, false) := by decide

/-- C2 (amended): the setter stores 0 with a warning exactly when 2n > nchan
(not 2n ≥ nchan); any 0 ≤ n with 2n ≤ nchan is stored unchanged without a
warning; edge flagging with n = 0 returns the input identically; and for
stored n > 0 every flattened frequency index whose within-subband channel is
among the first or last n gets its polarization samples set to NaN, the rest
kept unchanged, uniformly over times. -/
theorem edge_channels_spec (nchan : ℕ) (m : ℤ) (n : ℕ) (data : DataCube) (t f : ℕ)
    (hn : 0 < n) (ht : t < data.length) (hf : f < (data.getD t []).length) :
    (m * 2 > (nchan : ℤ) → edge_channels_setter nchan m = (0, true)) ∧
    (0 ≤ m → m * 2 ≤ (nchan : ℤ) → edge_channels_setter nchan m = (m, false)) ∧
    remove_edge_channels 0 nchan data = data ∧
    ((remove_edge_channels n nchan data).getD t []).getD f [] =
      (if f % nchan < n ∨ nchan - n ≤ f % nchan
       then ((data.getD t []).getD f []).map (fun _ => RVal.nan)
       else (data.getD t []).getD f []) := by
  refine ⟨?_, ?_, ?_, ?_⟩
  · intro h
    rw [edge_channels_setter, if_pos (by linarith)]
  · intro h1 h2
    rw [edge_channels_setter, if_neg (by omega), if_neg (by omega)]
  · simp [remove_edge_channels]
  · unfold remove_edge_channels
    rw [if_neg (by omega)]
    rw [getD_map_lt _ data t [] [] ht, getD_range_map _ _ f [] hf]

/-- Witness for C2 at nchan = 4, m = 1, n = 1 on a one-time, four-channel,
one-polarization cube: channel 0 is within the first n = 1 channels. -/
theorem edge_channels_spec_witness :
    ((1 : ℤ) * 2 > ((4 : ℕ) : ℤ) → edge_channels_setter 4 1 = (0, true)) ∧
    (0 ≤ (1 : ℤ) → (1 : ℤ) * 2 ≤ ((4 : ℕ) : ℤ) → edge_channels_setter 4 1 = (1, false)) ∧
    remove_edge_channels 0 4
      [[[RVal.val 1], [RVal.val 2], [RVal.val 3], [RVal.val 4]]] =
      [[[RVal.val 1], [RVal.val 2], [RVal.val 3], [RVal.val 4]]] ∧
    ((remove_edge_channels 1 4
        [[[RVal.val 1], [RVal.val 2], [RVal.val 3], [RVal.val 4]]]).getD 0 []).getD 0 [] =
      (if 0 % 4 < 1 ∨ 4 - 1 ≤ 0 % 4
       then ((([[[RVal.val 1], [RVal.val 2], [RVal.val 3], [RVal.val 4]]] : DataCube).getD 0
              []).getD 0 []).map (fun _ => RVal.nan)
       else (([[[RVal.val 1], [RVal.val 2], [RVal.val 3], [RVal.val 4]]] : DataCube).getD 0
              []).getD 0 []) :=
  edge_channels_spec 4 1 1
    [[[RVal.val 1], [RVal.val 2], [RVal.val 3], [RVal.val 4]]] 0 0
    (by decide) (by decide) (by decide)

/-- Complex number with rational components, for the coherency matrix. -/
structure CQ where
  re : ℚ
  im : ℚ
deriving DecidableEq

/-- The 2x2 eJones/coherency matrix of one (time, frequency) sample; field
e_jk is data[..., j, k] after the two da.stack calls of _to_ejones. -/
structure EJones where
  e00 : CQ
  e01 : CQ
  e10 : CQ
  e11 : CQ
deriving DecidableEq

/-- Embedding of _Lane._to_ejones (dynspec.py lines 827-847) on one sample:
fft0 = (XX, YY), fft1 = (Re(XY*), Im(XY*)); row1 = [XX, XY*],
row2 = [YX*, YY], and the outer stack places the row choice on the last
index, so e00 = XX, e10 = XY* = Re - i Im, e01 = YX* = Re + i Im, e11 = YY. -/
def to_ejones (fft0 fft1 : ℚ × ℚ) : EJones :=
  { e00 := ⟨fft0.1, 0⟩, e10 := ⟨fft1.1, -fft1.2⟩,
    e01 := ⟨fft1.1, fft1.2⟩, e11 := ⟨fft0.2, 0⟩ }

/-- Embedding of one letter dispatch of _Lane.get_stokes (dynspec.py lines
593-607): case-insensitive letter, unknown letters raise NotImplementedError. -/
def stokes_component (e : EJones) (c : Char) : Except PyError ℚ :=
  if c.toUpper = 'I' then Except.ok (e.e00.re + e.e11.re)
  else if c.toUpper = 'Q' then Except.ok (e.e00.re - e.e11.re)
  else if c.toUpper = 'U' then Except.ok (e.e01.re * 2)
  else if c.toUpper = 'V' then Except.ok (e.e01.im * 2)
  else Except.error PyError.notImplemented

/-- The per-sample trailing polarization axis built by get_stokes: requested
letters evaluated in request order and concatenated along the last axis. -/
def stokes_list (stokes : List Char) (e : EJones) : Except PyError (List ℚ) :=
  match stokes with
  | [] => Except.ok []
  | c :: rest =>
    match stokes_component e c, stokes_list rest e with
    | Except.ok v, Except.ok vs => Except.ok (v :: vs)
    | Except.error msg, _ => Except.error msg
    | _, Except.error msg => Except.error msg

/-- One frequency row of get_stokes output. -/
def stokes_row (stokes : List Char) (row : List EJones) : Except PyError (List (List ℚ)) :=
  match row with
  | [] => Except.ok []
  | e :: rest =>
    match stokes_list stokes e, stokes_row stokes rest with
    | Except.ok v, Except.ok vs => Except.ok (v :: vs)
    | Except.error msg, _ => Except.error msg
    | _, Except.error msg => Except.error msg

/-- Embedding of _Lane.get_stokes (dynspec.py lines 586-615) over the whole
(time, frequency) cube of eJones samples. -/
def get_stokes (stokes : List Char) (cube : List (List EJones)) :
    Except PyError (List (List (List ℚ))) :=
  match cube with
  | [] => Except.ok []
  | row :: rest =>
    match stokes_row stokes row, get_stokes stokes rest with
    | Except.ok v, Except.ok vs => Except.ok (v :: vs)
    | Except.error msg, _ => Except.error msg
    | _, Except.error msg => Except.error msg

theorem stokes_list_iquv (e : EJones) :
    stokes_list ['I', 'Q', 'U', 'V'] e =
      Except.ok [e.e00.re + e.e11.re, e.e00.re - e.e11.re, e.e01.re * 2, e.e01.im * 2] := rfl

theorem stokes_row_iquv (row : List EJones) :
    stokes_row ['I', 'Q', 'U', 'V'] row =
      Except.ok (row.map (fun e =>
        [e.e00.re + e.e11.re, e.e00.re - e.e11.re, e.e01.re * 2, e.e01.im * 2])) := by
  induction row with
  | nil => rfl
  | cons e rest ih => simp [stokes_row, stokes_list_iquv, ih]

theorem get_stokes_iquv (cube : List (List EJones)) :
    get_stokes ['I', 'Q', 'U', 'V'] cube =
      Except.ok (cube.map (fun row => row.map (fun e =>
        [e.e00.re + e.e11.re, e.e00.re - e.e11.re, e.e01.re * 2, e.e01.im * 2]))) := by
  induction cube with
  | nil => rfl
  | cons row rest ih => simp [get_stokes, stokes_row_iquv, ih]

/-- C4: get_stokes computes, per (time, frequency) sample, I = Re(e00) +
Re(e11) = Re(XX) + Re(YY), Q = Re(XX) - Re(YY), U = 2 Re(off-diagonal),
V = 2 Im(off-diagonal) of the assembled coherency matrix, concatenated along
the trailing polarization axis in request order; synthetic data with XX = 3,
YY = 5 and zero cross terms yields exactly I = 8 and Q = -2. -/
theorem get_stokes_spec (xx yy rexy imxy : ℚ) (cube : List (List EJones)) :
    get_stokes ['I', 'Q', 'U', 'V'] cube =
      Except.ok (cube.map (fun row => row.map (fun e =>
        [e.e00.re + e.e11.re, e.e00.re - e.e11.re, e.e01.re * 2, e.e01.im * 2]))) ∧
    stokes_list ['I', 'Q', 'U', 'V'] (to_ejones (xx, yy) (rexy, imxy)) =
      Except.ok [xx + yy, xx - yy, rexy * 2, imxy * 2] ∧
    stokes_list ['I', 'Q'] (to_ejones (3, 5) (0, 0)) = Except.ok [8, -2] := by
  refine ⟨get_stokes_iquv cube, rfl, ?_⟩
  show Except.ok [(3 : ℚ) + 5, (3 : ℚ) - 5] = Except.ok [8, -2]
  norm_num

/-- Embedding of the native time resolution derived in _Lane._load (dynspec.py
line 632): dt = 5.12e-6 * fftlen * nfft2int seconds. -/
def lane_dt (fftlen nfft2int : ℕ) : ℚ := (512/100000000) * fftlen * nfft2int

/-- Embedding of the native frequency resolution (dynspec.py line 633):
df = 1.0 / 5.12e-6 / fftlen Hz. -/
def lane_df (fftlen : ℕ) : ℚ := 1 / (512/100000000) / fftlen

/-- C5 counterexample: at the smallest valid header (fftlen = 16,
nfft2int = 4) the product dt * df * fftlen equals 64, not 1; the floating
tolerance cannot absorb a factor of 64. -/
theorem resolution_product_ne_one :
    lane_dt 16 4 * lane_df 16 * 16 ≠ 1 := by
  norm_num [lane_dt, lane_df]

/-- C5 (amended): the exact round-trip relation satisfied by the derived
native resolutions is dt * df = nfft2int (so dt * df * fftlen is
nfft2int * fftlen, which equals 1 only in the degenerate case). -/
theorem resolution_relation (fftlen nfft2int : ℕ) (h : 0 < fftlen) :
    lane_dt fftlen nfft2int * lane_df fftlen = nfft2int := by
  have hf : (fftlen : ℚ) ≠ 0 := Nat.cast_ne_zero.mpr h.ne'
  field_simp [lane_dt, lane_df]

/-- Witness for C5 at fftlen = 16, nfft2int = 4. -/
theorem resolution_relation_witness :
    lane_dt 16 4 * lane_df 16 = ((4 : ℕ) : ℚ) :=
  resolution_relation 16 4 (by decide)

/-- Embedding of the lower frequency-index snap in Dynspec.get (dynspec.py
line 1473): floor to a multiple of the channels-per-subband count. -/
def snap_fmin_idx (fmin_idx n_channels : ℕ) : ℕ :=
  fmin_idx / n_channels * n_channels

/-- Embedding of the upper frequency-index snap in Dynspec.get (dynspec.py
line 1474): raise to the next multiple of the channels-per-subband count. -/
def snap_fmax_idx (fmax_idx n_channels : ℕ) : ℕ :=
  (fmax_idx / n_channels + 1) * n_channels

/-- C7: the snapped bounds cover whole subbands: the start is floored to a
multiple of the channel count (never above the requested start), the stop is
raised strictly past the requested stop to a multiple, and the sliced extent
length is a multiple of the channel count. -/
theorem get_snaps_whole_subbands (a b n : ℕ) (hn : 0 < n) :
    snap_fmin_idx a n ≤ a ∧ snap_fmin_idx a n % n = 0 ∧
    b < snap_fmax_idx b n ∧ snap_fmax_idx b n % n = 0 ∧
    (snap_fmax_idx b n - snap_fmin_idx a n) % n = 0 := by
  unfold snap_fmin_idx snap_fmax_idx
  refine ⟨Nat.div_mul_le_self a n, Nat.mul_mod_left _ n, ?_, Nat.mul_mod_left _ n, ?_⟩
  · have h1 := Nat.div_add_mod b n
    have h2 := Nat.mod_lt b hn
    have h3 : (b / n + 1) * n = n * (b / n) + n := by ring
    omega
  · rw [← Nat.sub_mul]
    exact Nat.mul_mod_left _ n

/-- Witness for C7 at start index 5, stop index 9, 4 channels per subband. -/
theorem get_snaps_whole_subbands_witness :
    snap_fmin_idx 5 4 ≤ 5 ∧ snap_fmin_idx 5 4 % 4 = 0 ∧
    9 < snap_fmax_idx 9 4 ∧ snap_fmax_idx 9 4 % 4 = 0 ∧
    (snap_fmax_idx 9 4 - snap_fmin_idx 5 4) % 4 = 0 :=
  get_snaps_whole_subbands 5 9 4 (by decide)

/-- NaN-ignoring mean of a list of samples, as np.nanmean: the mean of the
non-NaN entries, NaN when every entry is NaN. -/
def nanmean (xs : List RVal) : RVal :=
  let vals := xs.filterMap (fun x => match x with | RVal.nan => none | RVal.val q => some q)
  if vals.length = 0 then RVal.nan else RVal.val (vals.sum / vals.length)

/-- Pointwise NaN-ignoring mean across a group of polarization sample lists. -/
def binCells (cells : List (List RVal)) : List RVal :=
  match cells with
  | [] => []
  | c0 :: _ =>
    (List.range c0.length).map (fun p => nanmean (cells.map (fun c => c.getD p RVal.nan)))

/-- Pointwise NaN-ignoring mean across a group of consecutive time rows. -/
def binRows (rows : DataCube) : List (List RVal) :=
  match rows with
  | [] => []
  | r0 :: _ =>
    (List.range r0.length).map (fun f => binCells (rows.map (fun r => r.getD f [])))

/-- Output bin count of one rebinned axis: ntimes = floor(ntimes_i / tbins)
(Dynspec._rebin, dynspec.py line 1852). -/
def rebinBinCount (w n : ℕ) : ℕ := n / w

/-- Samples left over at the end of a rebinned axis:
tleftover = ntimes_i % ntimes (dynspec.py line 1853). -/
def rebinLeftover (w n : ℕ) : ℕ := n % rebinBinCount w n

/-- Size of each averaged group: (ntimes_i - tleftover) / ntimes
(dynspec.py line 1858). -/
def rebinGroupSize (w n : ℕ) : ℕ := (n - rebinLeftover w n) / rebinBinCount w n

/-- Time-axis rebinning of Dynspec._rebin (dynspec.py lines 1846-1868): drop
the leftover rows at the end, reshape the rest into (bins, groupsize, ...)
and take the NaN-ignoring mean over each group. -/
def rebin_time (w : ℕ) (data : DataCube) : DataCube :=
  (List.range (rebinBinCount w data.length)).map (fun j =>
    binRows (((data.take (data.length - rebinLeftover w data.length)).drop
      (j * rebinGroupSize w data.length)).take (rebinGroupSize w data.length)))

/-- Frequency-axis rebinning (dynspec.py lines 1869-1890): the same scheme
along the frequency axis of every time row. -/
def rebin_freq (w : ℕ) (data : DataCube) : DataCube :=
  data.map (fun row =>
    (List.range (rebinBinCount w row.length)).map (fun j =>
      binCells (((row.take (row.length - rebinLeftover w row.length)).drop
        (j * rebinGroupSize w row.length)).take (rebinGroupSize w row.length))))

/-- Embedding of the data path of Dynspec._rebin (dynspec.py lines 1841-1896):
a None width skips the corresponding axis and time is processed before
frequency; the widths are the target bin widths in native units
(tbins = floor(rebin_dt / dt), fbins = floor(rebin_df / df)). -/
def rebin (tw fw : Option ℕ) (data : DataCube) : DataCube :=
  let d1 := match tw with | none => data | some w => rebin_time w data
  match fw with | none => d1 | some w => rebin_freq w d1

theorem rebin_arith (w n : ℕ) (hw : 0 < w) (hn : w ≤ n) :
    rebinGroupSize w n = n / rebinBinCount w n ∧
    rebinBinCount w n * rebinGroupSize w n + rebinLeftover w n = n := by
  have hnb : 0 < rebinBinCount w n := Nat.div_pos hn hw
  have hdm := Nat.div_add_mod n (rebinBinCount w n)
  have hsub : n - rebinLeftover w n = rebinBinCount w n * (n / rebinBinCount w n) := by
    unfold rebinLeftover
    omega
  have hgs : rebinGroupSize w n = n / rebinBinCount w n := by
    unfold rebinGroupSize
    rw [hsub, Nat.mul_div_cancel_left _ hnb]
  exact ⟨hgs, by rw [hgs]; unfold rebinLeftover; omega⟩

/-- C6: for a configured non-null time width w (in native units, with
0 < w ≤ total), the rebinning stage produces floor(total / w) output bins;
bin j averages exactly the j-th group of consecutive kept samples and the
leftover samples at the end enter no bin (bins * groupsize + leftover =
total); null widths leave the data untouched; and the two quoted instances
hold: 100 samples at width 10 give 10 bins with leftover 0, at width 33 give
3 bins with leftover 1. -/
theorem rebin_bin_count_spec (w : ℕ) (data : DataCube) (j : ℕ)
    (hw : 0 < w) (hn : w ≤ data.length) (hj : j < rebinBinCount w data.length) :
    (rebin (some w) none data).length = data.length / w ∧
    rebin none none data = data ∧
    (rebin (some w) none data).getD j [] =
      binRows ((data.drop (j * rebinGroupSize w data.length)).take
        (rebinGroupSize w data.length)) ∧
    rebinBinCount w data.length * rebinGroupSize w data.length
      + rebinLeftover w data.length = data.length ∧
    rebinBinCount 10 100 = 10 ∧ rebinLeftover 10 100 = 0 ∧
    rebinBinCount 33 100 = 3 ∧ rebinLeftover 33 100 = 1 := by
  obtain ⟨hgs, hsplit⟩ := rebin_arith w data.length hw hn
  refine ⟨?_, rfl, ?_, hsplit, by decide, by decide, by decide, by decide⟩
  · show (rebin_time w data).length = data.length / w
    rw [rebin_time, List.length_map, List.length_range]
    rfl
  · show (rebin_time w data).getD j [] = _
    rw [rebin_time, getD_range_map _ _ j [] hj]
    have hle : rebinGroupSize w data.length ≤
        data.length - rebinLeftover w data.length - j * rebinGroupSize w data.length := by
      have h1 : (j + 1) * rebinGroupSize w data.length ≤
          rebinBinCount w data.length * rebinGroupSize w data.length :=
        Nat.mul_le_mul_right _ hj
      have h3 : (j + 1) * rebinGroupSize w data.length =
          j * rebinGroupSize w data.length + rebinGroupSize w data.length := by ring
      omega
    rw [List.drop_take, List.take_take, min_eq_left hle]

/-- Witness for C6 on a 100-sample, single-channel, single-polarization
series with width 10, at output bin 0. -/
theorem rebin_bin_count_spec_witness :
    (rebin (some 10) none (List.replicate 100 [[RVal.val 1]])).length =
      (List.replicate 100 ([[RVal.val 1]] : List (List RVal))).length / 10 ∧
    rebin none none (List.replicate 100 [[RVal.val 1]]) =
      List.replicate 100 [[RVal.val 1]] ∧
    (rebin (some 10) none (List.replicate 100 [[RVal.val 1]])).getD 0 [] =
      binRows (((List.replicate 100 ([[RVal.val 1]] : List (List RVal))).drop
        (0 * rebinGroupSize 10 (List.replicate 100 ([[RVal.val 1]] : List (List RVal))).length)).take
        (rebinGroupSize 10 (List.replicate 100 ([[RVal.val 1]] : List (List RVal))).length)) ∧
    rebinBinCount 10 (List.replicate 100 ([[RVal.val 1]] : List (List RVal))).length *
        rebinGroupSize 10 (List.replicate 100 ([[RVal.val 1]] : List (List RVal))).length +
        rebinLeftover 10 (List.replicate 100 ([[RVal.val 1]] : List (List RVal))).length =
      (List.replicate 100 ([[RVal.val 1]] : List (List RVal))).length ∧
    rebinBinCount 10 100 = 10 ∧ rebinLeftover 10 100 = 0 ∧
    rebinBinCount 33 100 = 3 ∧ rebinLeftover 33 100 = 1 :=
  rebin_bin_count_spec 10 (List.replicate 100 [[RVal.val 1]]) 0
    (by decide) (by decide) (by decide)

/-- One attached lane as seen by the Dynspec.get loop: its beam index map
(beam id to frequency start/stop extent, _Lane.beam_idx), the nearest-index
matches of the requested frequency bounds inside the beam range (the two
argmin computations of get, lines 1462-1467), and the lane's processed
pipeline result. -/
structure GetLane where
  beam_idx : List (ℕ × (ℕ × ℕ))
  fmin_idx : ℕ
  fmax_idx : ℕ
  sdata : DataCube
deriving DecidableEq

/-- Dictionary lookup li.beam_idx[str(beam)]; a missing key raises KeyError,
which get catches and turns into a skip (dynspec.py lines 1442-1446). -/
def lookupBeam : List (ℕ × (ℕ × ℕ)) → ℕ → Option (ℕ × ℕ)
  | [], _ => none
  | (k, v) :: rest, b => if k = b then some v else lookupBeam rest b

/-- Frequency stitching of per-lane results: the SData conjunction
spec & sd concatenates along the frequency axis (dynspec.py line 1538). -/
def sdataFreqConcat (s1 s2 : DataCube) : DataCube :=
  s1.zipWith (fun r1 r2 => r1 ++ r2) s2

/-- One iteration of the lane loop of Dynspec.get (dynspec.py lines 1440-1470
and 1523-1538): a lane without the selected beam is skipped (continue), a lane
whose frequency selection is empty (fmin_idx - fmax_idx == 0) is skipped,
otherwise the lane's result is stitched onto the accumulator. -/
def get_lane_step (beam : ℕ) (acc : Option DataCube) (lane : GetLane) : Option DataCube :=
  match lookupBeam lane.beam_idx beam with
  | none => acc
  | some _ =>
    if lane.fmin_idx = lane.fmax_idx then acc
    else
      match acc with
      | none => some lane.sdata
      | some s => some (sdataFreqConcat s lane.sdata)

/-- Control-flow skeleton of Dynspec.get (dynspec.py lines 1440-1542): the
loop only assigns the local variable spec when a lane contributes, and the
final return spec raises UnboundLocalError when no lane contributed. -/
def get_skeleton (beam : ℕ) (lanes : List GetLane) : Except PyError DataCube :=
  match lanes.foldl (get_lane_step beam) none with
  | none => Except.error PyError.unboundLocal
  | some s => Except.ok s

theorem foldl_none_of_no_contribution (beam : ℕ) : ∀ (lanes : List GetLane),
    (∀ li ∈ lanes, lookupBeam li.beam_idx beam = none ∨ li.fmin_idx = li.fmax_idx) →
    lanes.foldl (get_lane_step beam) none = none := by
  intro lanes
  induction lanes with
  | nil => intro _; rfl
  | cons li rest ih =>
    intro hall
    have hli := hall li (by simp)
    have hstep : get_lane_step beam none li = none := by
      rcases hli with h | h
      · simp [get_lane_step, h]
      · cases hbeam : lookupBeam li.beam_idx beam <;> simp [get_lane_step, hbeam, h]
    rw [List.foldl_cons, hstep]
    exact ih (fun x hx => hall x (by simp [hx]))

/-- C8: a lane whose beam map does not contain the selected beam is skipped
without error (removing it from the head of the lane list leaves the result
unchanged), and if no lane at all contributes (beam absent or empty frequency
selection everywhere) get fails with an error instead of returning an empty
result. -/
theorem get_skips_lane_and_errors_when_empty (beam : ℕ) (l : GetLane)
    (rest lanes : List GetLane)
    (hskip : lookupBeam l.beam_idx beam = none)
    (hall : ∀ li ∈ lanes, lookupBeam li.beam_idx beam = none ∨ li.fmin_idx = li.fmax_idx) :
    get_skeleton beam (l :: rest) = get_skeleton beam rest ∧
    get_skeleton beam lanes = Except.error PyError.unboundLocal := by
  constructor
  · unfold get_skeleton
    rw [List.foldl_cons]
    have hstep : get_lane_step beam none l = none := by simp [get_lane_step, hskip]
    rw [hstep]
  · rw [get_skeleton, foldl_none_of_no_contribution beam lanes hall]

/-- Witness for C8: one lane holding only beam 1 while beam 0 is selected. -/
theorem get_skips_lane_and_errors_when_empty_witness :
    get_skeleton 0 (GetLane.mk [(1, (0, 4))] 0 3 [] :: []) = get_skeleton 0 [] ∧
    get_skeleton 0 [GetLane.mk [(1, (0, 4))] 0 3 []] =
      Except.error PyError.unboundLocal :=
  get_skips_lane_and_errors_when_empty 0 (GetLane.mk [(1, (0, 4))] 0 3 [])
    [] [GetLane.mk [(1, (0, 4))] 0 3 []] (by decide) (by decide)

/-- A candidate lane file as seen by the lanefiles setter: its absolute path
and whether os.path.isfile finds it on disk. -/
structure FileIn where
  path : String
  onDisk : Bool
deriving DecidableEq

/-- A _Lane object, abstracted to the file it was constructed from (the
decoding done by _Lane.__init__ plays no role in the attachment logic). -/
structure LaneTag where
  lanefile : String
deriving DecidableEq

/-- The loop of the Dynspec.lanefiles setter (dynspec.py lines 953-962): each
listed file must exist (else FileNotFoundError) and one _Lane per file is
appended to the existing self.lanes list, which is never cleared; the
same-observation prefix check present in the docstring is commented out in
the code and performs no comparison. -/
def appendLanes : List LaneTag → List FileIn → Except PyError (List LaneTag)
  | lanes, [] => Except.ok lanes
  | lanes, f :: rest =>
    if f.onDisk then appendLanes (lanes ++ [LaneTag.mk f.path]) rest
    else Except.error PyError.fileNotFound

/-- Embedding of the Dynspec.lanefiles setter (dynspec.py lines 941-964): the
state is the pair (self.lanes, self._lanefiles); on success the new lanes are
the previous ones plus one per listed file, and _lanefiles holds the listed
paths. -/
def lanefiles_setter (lanes : List LaneTag) (l : List FileIn) :
    Except PyError (List LaneTag × List String) :=
  match appendLanes lanes l with
  | Except.ok newLanes => Except.ok (newLanes, l.map FileIn.path)
  | Except.error e => Except.error e

/-- Dynspec.__init__ (dynspec.py lines 883-885): self.lanes = [], then the
lanefiles setter runs on the constructor argument. -/
def dynspec_init (l : List FileIn) : Except PyError (List LaneTag × List String) :=
  lanefiles_setter [] l

/-- C3: the claim states that a list of lane files whose names are not all
from the same capture session fails with a ValueError.  The session check is
commented out in the code, so two well-formed files with visibly different
session prefixes are both attached and no error of any kind is raised. -/
theorem different_sessions_not_rejected :
    dynspec_init
      [FileIn.mk "/data/B1919+21_TRACKING_20200214_090835_0.spectra" true,
       FileIn.mk "/data/CRAB_TRACKING_20210101_000000_1.spectra" true] =
      Except.ok
        ([LaneTag.mk "/data/B1919+21_TRACKING_20200214_090835_0.spectra",
          LaneTag.mk "/data/CRAB_TRACKING_20210101_000000_1.spectra"],
         ["/data/B1919+21_TRACKING_20200214_090835_0.spectra",
          "/data/CRAB_TRACKING_20210101_000000_1.spectra"]) := rfl

theorem appendLanes_all_found : ∀ (l : List FileIn) (st : List LaneTag),
    (∀ f ∈ l, f.onDisk = true) →
    appendLanes st l = Except.ok (st ++ l.map (fun f => LaneTag.mk f.path)) := by
  intro l
  induction l with
  | nil => intro st _; simp [appendLanes]
  | cons f rest ih =>
    intro st h
    have hf : f.onDisk = true := h f (by simp)
    rw [appendLanes, if_pos hf, ih (st ++ [LaneTag.mk f.path]) (fun x hx => h x (by simp [hx]))]
    simp

/-- C10: every assignment to lanefiles appends one _Lane per listed file to
the existing lanes list without clearing it; in particular assigning the same
list again after construction leaves the first batch in place, so the lanes
list then holds every lane twice and get iterates over the duplicates. -/
theorem lanefiles_setter_appends (st : List LaneTag) (l : List FileIn)
    (h : ∀ f ∈ l, f.onDisk = true) :
    lanefiles_setter st l =
      Except.ok (st ++ l.map (fun f => LaneTag.mk f.path), l.map FileIn.path) ∧
    lanefiles_setter (l.map (fun f => LaneTag.mk f.path)) l =
      Except.ok (l.map (fun f => LaneTag.mk f.path) ++ l.map (fun f => LaneTag.mk f.path),
        l.map FileIn.path) := by
  constructor
  · rw [lanefiles_setter, appendLanes_all_found l st h]
  · rw [lanefiles_setter, appendLanes_all_found l (l.map (fun f => LaneTag.mk f.path)) h]

/-- Witness for C10: attaching the same two existing files twice yields four
lanes, the first batch kept in place. -/
theorem lanefiles_setter_appends_witness :
    lanefiles_setter [LaneTag.mk "/d/obs_0.spectra"]
      [FileIn.mk "/d/obs_0.spectra" true, FileIn.mk "/d/obs_1.spectra" true] =
      Except.ok
        ([LaneTag.mk "/d/obs_0.spectra"] ++
          ([FileIn.mk "/d/obs_0.spectra" true,
            FileIn.mk "/d/obs_1.spectra" true].map (fun f => LaneTag.mk f.path)),
         [FileIn.mk "/d/obs_0.spectra" true,
          FileIn.mk "/d/obs_1.spectra" true].map FileIn.path) ∧
    lanefiles_setter
      ([FileIn.mk "/d/obs_0.spectra" true,
        FileIn.mk "/d/obs_1.spectra" true].map (fun f => LaneTag.mk f.path))
      [FileIn.mk "/d/obs_0.spectra" true, FileIn.mk "/d/obs_1.spectra" true] =
      Except.ok
        (([FileIn.mk "/d/obs_0.spectra" true,
           FileIn.mk "/d/obs_1.spectra" true].map (fun f => LaneTag.mk f.path)) ++
          ([FileIn.mk "/d/obs_0.spectra" true,
            FileIn.mk "/d/obs_1.spectra" true].map (fun f => LaneTag.mk f.path)),
         [FileIn.mk "/d/obs_0.spectra" true,
          FileIn.mk "/d/obs_1.spectra" true].map FileIn.path) :=
  lanefiles_setter_appends [LaneTag.mk "/d/obs_0.spectra"]
    [FileIn.mk "/d/obs_0.spectra" true, FileIn.mk "/d/obs_1.spectra" true]
    (by decide)
